import Mathlib

/-!
Verification of the two client-side applications in this repository
(a contact form with validation and message history, and a todo list with
search/filter), shallowly embedded in Lean.

Text is modelled as `List Char`.  The browser storage and `JSON.parse`
are external platform APIs; they are modelled by explicit outcome types
and a parse parameter.  Timestamps (`sentAt` epoch milliseconds,
`createdAt` ISO strings compared through `new Date`) are modelled as `Nat`
in chronological order.
-/

/-! ## Text utilities (JS string primitives used by the code) -/

/-- Model of `String.prototype.trim`: drop leading and trailing whitespace. -/
def jsTrim (s : List Char) : List Char :=
  ((s.reverse.dropWhile Char.isWhitespace).reverse).dropWhile Char.isWhitespace

/-- Model of `String.prototype.toLowerCase` (ASCII-faithful). -/
def jsLower (s : List Char) : List Char := s.map Char.toLower

/-- The first list is a leading segment of the second. -/
def leadsWith : List Char → List Char → Bool
  | [], _ => true
  | _ :: _, [] => false
  | a :: as, b :: bs => a == b && leadsWith as bs

/-- Model of `String.prototype.includes`: the needle occurs as a
contiguous segment of the haystack. -/
def jsIncludes (hay needle : List Char) : Bool :=
  (List.range (hay.length + 1)).any fun i => leadsWith needle (hay.drop i)

/-! ## Todo data model -/

/-- A todo item as stored by the todo app: `{id, text, completed, createdAt}`.
`createdAt` is an ISO-8601 string in the source, always compared through
`new Date(...)`; it is modelled by its timestamp value. -/
structure Todo where
  id : List Char
  text : List Char
  completed : Bool
  createdAt : Nat
deriving DecidableEq, Repr

/-- Stable insertion of a todo into a list sorted newest-first: the item
goes after every strictly newer item and before items of equal age. -/
def insertDesc (t : Todo) : List Todo → List Todo
  | [] => [t]
  | u :: us => if t.createdAt < u.createdAt then u :: insertDesc t us else t :: u :: us

/-- Stable sort newest-first: model of the JS (ES2019, stable)
`results.sort((a,b) => new Date(b.createdAt) - new Date(a.createdAt))`. -/
def sortByCreatedAtDesc : List Todo → List Todo
  | [] => []
  | t :: ts => insertDesc t (sortByCreatedAtDesc ts)

/-- Embedding of `applyFiltersAndSearch` from
`Dynamic Todo List with Search/script.js` (lines 91-103): completion filter,
then substring search; NO sort step is present in this version.
`currentFilter` is the raw string of the filter button. -/
def applyFiltersAndSearchV0 (todos : List Todo) (currentFilter currentQuery : List Char) :
    List Todo :=
  let q := jsLower (jsTrim currentQuery)
  let results := todos
  let results :=
    if currentFilter = "active".toList then results.filter fun t => !t.completed
    else if currentFilter = "completed".toList then results.filter fun t => t.completed
    else results
  if 0 < q.length then results.filter fun t => jsIncludes (jsLower t.text) q
  else results

/-- Embedding of `applyFiltersAndSearch` from `unnamed/part_001`
(lines 101-119): completion filter, then substring search, then the stable
sort `(a,b) => new Date(b.createdAt) - new Date(a.createdAt)`. -/
def applyFiltersAndSearchV1 (todos : List Todo) (currentFilter currentQuery : List Char) :
    List Todo :=
  let q := jsLower (jsTrim currentQuery)
  let results := todos
  let results :=
    if currentFilter = "active".toList then results.filter fun t => !t.completed
    else if currentFilter = "completed".toList then results.filter fun t => t.completed
    else results
  let results :=
    if 0 < q.length then results.filter fun t => jsIncludes (jsLower t.text) q
    else results
  sortByCreatedAtDesc results

/-- Spec-side derivation, written from the spec's words for comparison
with the code: (1) filter by completion state per the mode; (2) if the
query is non-empty after trimming, keep only items whose text contains the
(case-insensitive) query as a substring; (3) sort by creation timestamp
descending. -/
def deriveSpec (allItems : List Todo) (filterMode query : List Char) : List Todo :=
  let step1 :=
    if filterMode = "active".toList then allItems.filter fun t => !t.completed
    else if filterMode = "completed".toList then allItems.filter fun t => t.completed
    else allItems
  let step2 :=
    if jsTrim query ≠ [] then
      step1.filter fun t => jsIncludes (jsLower t.text) (jsLower (jsTrim query))
    else step1
  sortByCreatedAtDesc step2

/-- Spec-side derivation stopped after step (2): completion filter and
substring search, with no sort. -/
def deriveSpecUnsorted (allItems : List Todo) (filterMode query : List Char) : List Todo :=
  let step1 :=
    if filterMode = "active".toList then allItems.filter fun t => !t.completed
    else if filterMode = "completed".toList then allItems.filter fun t => t.completed
    else allItems
  if jsTrim query ≠ [] then
    step1.filter fun t => jsIncludes (jsLower t.text) (jsLower (jsTrim query))
  else step1

example : jsTrim "  ab ".toList = "ab".toList := by decide
example : jsIncludes "hello".toList "ell".toList = true := by decide
example : jsIncludes "hello".toList "elo".toList = false := by decide
example :
    applyFiltersAndSearchV0 [⟨"1".toList, "a".toList, false, 0⟩, ⟨"2".toList, "b".toList, false, 1⟩]
      "all".toList [] =
    [⟨"1".toList, "a".toList, false, 0⟩, ⟨"2".toList, "b".toList, false, 1⟩] := by decide
example :
    deriveSpec [⟨"1".toList, "a".toList, false, 0⟩, ⟨"2".toList, "b".toList, false, 1⟩]
      "all".toList [] =
    [⟨"2".toList, "b".toList, false, 1⟩, ⟨"1".toList, "a".toList, false, 0⟩] := by decide

/-! ## Storage model

`localStorage` and `JSON.parse` are platform APIs.  A read either yields
the stored string, yields null (key absent), or throws; a write either
succeeds or throws.  `JSON.parse` is a parameter producing an optional
JSON value (`none` models a parse exception). -/

/-- Outcome of `localStorage.getItem(STORAGE_KEY)`. -/
inductive ReadOutcome where
  | value (raw : List Char)
  | absent
  | thrown
deriving DecidableEq

/-- Outcome of `localStorage.setItem(...)`. -/
inductive WriteOutcome where
  | ok
  | thrown
deriving DecidableEq

/-- JSON values, coarsely: an array of todo records (the well-formed
case), a number, a string, or an object; enough to express that `load`
never inspects the shape of the parsed value. -/
inductive JsValue where
  | arr (elems : List Todo)
  | num (n : Int)
  | str (s : List Char)
  | obj
deriving DecidableEq

/-- Embedding of `loadTodos` (`script.js` lines 4-12; `loadMessages` in
`unnamed/part_000` lines 3-11 is identical up to the key): inside a
try/catch, read the raw string; `raw ? JSON.parse(raw) : []` returns the
parsed value when `raw` is truthy (non-null and non-empty), `[]`
otherwise; any exception (read or parse) yields `[]`. -/
def loadTodos (parse : List Char → Option JsValue) : ReadOutcome → JsValue
  | .thrown => .arr []
  | .absent => .arr []
  | .value raw =>
    if raw = [] then .arr []
    else
      match parse raw with
      | some v => v
      | none => .arr []

/-- Embedding of `saveTodos` (`script.js` lines 14-22): serialize the
items and attempt the write inside try/catch, returning `true` on success
and `false` if the store throws (serialization of these records cannot
throw). -/
def saveTodos (_todos : List Todo) : WriteOutcome → Bool
  | .ok => true
  | .thrown => false

/-! ## Todo event handlers -/

/-- The removal step of the delete handler
(`script.js` line 144 / `unnamed/part_001` line 162):
`todos.filter(t => t.id !== id)`. -/
def removeById (id : List Char) (todos : List Todo) : List Todo :=
  todos.filter fun t => decide (t.id ≠ id)

/-- Result of a todo-app event handler: the in-memory list, the persisted
list, whether the text input was cleared, and the transient message
(text plus an is-error flag), if one was shown. -/
structure TodoHandlerResult where
  todos : List Todo
  stored : List Todo
  inputCleared : Bool
  msg : Option (List Char × Bool)
deriving DecidableEq

/-- Embedding of the todo form submit handler (`script.js` lines 105-136,
`unnamed/part_001` lines 122-153).  `inputValue` is the raw text field,
`newId` and `now` stand for the generated id and current time, `write` is
the outcome of the storage write, and `stored` is the list currently in
the persisted store (what `loadTodos()` yields on the failure path). -/
def todoSubmitHandler (inputValue newId : List Char) (now : Nat)
    (write : WriteOutcome) (todos stored : List Todo) : TodoHandlerResult :=
  let v := jsTrim inputValue
  if v.length = 0 then
    ⟨todos, stored, false, some ("Please enter a todo.".toList, true)⟩
  else if v.length < 3 then
    ⟨todos, stored, false, some ("Todo must be at least 3 characters.".toList, true)⟩
  else
    let newTodo : Todo := ⟨newId, v, false, now⟩
    let todos2 := newTodo :: todos
    if saveTodos todos2 write then
      ⟨todos2, todos2, true, some ("Todo added!".toList, false)⟩
    else
      ⟨stored, stored, false,
        some ("Could not save todo locally. Check storage settings.".toList, true)⟩

/-- Embedding of the delete branch of the todo list click handler
(`script.js` lines 138-152, `unnamed/part_001` lines 156-170): bail out on
an empty id or an unconfirmed prompt; otherwise remove by id and save; on
write failure show an error and reload the in-memory list from the store. -/
def todoDeleteHandler (id : List Char) (confirmOk : Bool) (write : WriteOutcome)
    (todos stored : List Todo) : TodoHandlerResult :=
  if id = [] then ⟨todos, stored, false, none⟩
  else if !confirmOk then ⟨todos, stored, false, none⟩
  else
    let filtered := removeById id todos
    if saveTodos filtered write then ⟨filtered, filtered, false, none⟩
    else
      ⟨stored, stored, false, some ("Could not delete todo (storage error).".toList, true)⟩

/-! ## Contact form: field validators -/

/-- Result of a field validator: `{valid, message}`. -/
structure VResult where
  valid : Bool
  message : List Char
deriving DecidableEq

/-- Embedding of `validateName` (`unnamed/part_000` lines 40-45). -/
def validateName (value : List Char) : VResult :=
  let v := jsTrim value
  if v.length = 0 then ⟨false, "Name is required.".toList⟩
  else if v.length < 2 then ⟨false, "Name must have at least 2 characters.".toList⟩
  else ⟨true, []⟩

/-- Match semantics of the anchored regex in `validateEmail`
(`unnamed/part_000` line 50): the string splits as `a ++ @ ++ b ++ . ++ c`
with `a`, `b`, `c` non-empty and every character of them neither
whitespace nor `@` (the class `[^\s@]`).  A match is the existence of such
a decomposition, searched over all split points. -/
def emailRegexTest (s : List Char) : Bool :=
  (List.range (s.length + 1)).any fun i =>
    match s.drop i with
    | '@' :: rest =>
      !(s.take i).isEmpty &&
      (s.take i).all (fun c => !c.isWhitespace && c ≠ '@') &&
      ((List.range (rest.length + 1)).any fun j =>
        match rest.drop j with
        | '.' :: c =>
          !(rest.take j).isEmpty &&
          (rest.take j).all (fun ch => !ch.isWhitespace && ch ≠ '@') &&
          !c.isEmpty && c.all (fun ch => !ch.isWhitespace && ch ≠ '@')
        | _ => false)
    | _ => false

/-- The pattern in the claim's words: `nonspace+ @ nonspace+ . nonspace+`,
where the repeated class is every non-whitespace character (with no
exclusion of `@`). -/
def claimEmailPattern (s : List Char) : Bool :=
  (List.range (s.length + 1)).any fun i =>
    match s.drop i with
    | '@' :: rest =>
      !(s.take i).isEmpty &&
      (s.take i).all (fun c => !c.isWhitespace) &&
      ((List.range (rest.length + 1)).any fun j =>
        match rest.drop j with
        | '.' :: c =>
          !(rest.take j).isEmpty &&
          (rest.take j).all (fun ch => !ch.isWhitespace) &&
          !c.isEmpty && c.all (fun ch => !ch.isWhitespace)
        | _ => false)
    | _ => false

/-- Embedding of `validateEmail` (`unnamed/part_000` lines 47-52). -/
def validateEmail (value : List Char) : VResult :=
  let v := jsTrim value
  if v.length = 0 then ⟨false, "Email is required.".toList⟩
  else if emailRegexTest v then ⟨true, []⟩
  else ⟨false, "Enter a valid email.".toList⟩

/-- Embedding of `validateMessage` (`unnamed/part_000` lines 54-59). -/
def validateMessage (value : List Char) : VResult :=
  let v := jsTrim value
  if v.length = 0 then ⟨false, "Message is required.".toList⟩
  else if v.length < 10 then ⟨false, "Message must be at least 10 characters.".toList⟩
  else ⟨true, []⟩

example : (validateEmail "a@b.co".toList).valid = true := by decide
example : (validateEmail "a@@b.co".toList).valid = false := by decide
example : claimEmailPattern "a@@b.co".toList = true := by decide

/-! ## Contact form: entities and handlers -/

/-- A contact message as stored by the contact app:
`{id, name, email, message, sentAt}` with `sentAt` in epoch milliseconds. -/
structure ContactMsg where
  id : List Char
  name : List Char
  email : List Char
  message : List Char
  sentAt : Nat
deriving DecidableEq

/-- Result of a contact-app event handler: in-memory list, persisted list,
whether `form.reset()` ran, and the transient global message (text plus an
is-error flag), if one was shown. -/
structure ContactHandlerResult where
  messages : List ContactMsg
  stored : List ContactMsg
  formReset : Bool
  globalMsg : Option (List Char × Bool)
deriving DecidableEq

/-- Embedding of `saveMessages` (`unnamed/part_000` lines 13-21), the
contact app's copy of the write helper. -/
def saveMessages (_messages : List ContactMsg) : WriteOutcome → Bool
  | .ok => true
  | .thrown => false

/-- Embedding of the contact form submit handler (`unnamed/part_000`
lines 169-213): validate the three fields; abort on the first invalid one;
otherwise build the entity from the trimmed inputs, prepend it, save; on
write failure show an error and reload from the store, on success reset
the form and show a success message. -/
def contactSubmitHandler (nameV emailV messageV newId : List Char) (now : Nat)
    (write : WriteOutcome) (messages stored : List ContactMsg) : ContactHandlerResult :=
  let rn := validateName nameV
  let re := validateEmail emailV
  let rm := validateMessage messageV
  if !rn.valid then ⟨messages, stored, false, none⟩
  else if !re.valid then ⟨messages, stored, false, none⟩
  else if !rm.valid then ⟨messages, stored, false, none⟩
  else
    let newMessage : ContactMsg :=
      ⟨newId, jsTrim nameV, jsTrim emailV, jsTrim messageV, now⟩
    let messages2 := newMessage :: messages
    if saveMessages messages2 write then
      ⟨messages2, messages2, true, some ("Message submitted!".toList, false)⟩
    else
      ⟨stored, stored, false,
        some ("Could not save message locally. Please check browser settings.".toList, true)⟩

/-- The removal step of the contact delete handler
(`unnamed/part_000` line 222): `messages.filter(m => m.id !== id)`. -/
def removeMsgById (id : List Char) (messages : List ContactMsg) : List ContactMsg :=
  messages.filter fun m => decide (m.id ≠ id)

/-- Embedding of the contact list delete click handler (`unnamed/part_000`
lines 215-229): bail out on an empty id or an unconfirmed prompt;
otherwise remove by id and save; on write failure show an error and reload
the in-memory list from the store. -/
def contactDeleteHandler (id : List Char) (confirmOk : Bool) (write : WriteOutcome)
    (messages stored : List ContactMsg) : ContactHandlerResult :=
  if id = [] then ⟨messages, stored, false, none⟩
  else if !confirmOk then ⟨messages, stored, false, none⟩
  else
    let filtered := removeMsgById id messages
    if saveMessages filtered write then ⟨filtered, filtered, false, none⟩
    else
      ⟨stored, stored, false,
        some ("Could not delete message (storage error).".toList, true)⟩

/-! ## HTML escaping -/

/-- Model of `String.prototype.replaceAll` for a single-character search
string: replace every occurrence of `target` by `rep`. -/
def replaceAllChar (target : Char) (rep : List Char) : List Char → List Char
  | [] => []
  | c :: rest => (if c = target then rep else [c]) ++ replaceAllChar target rep rest

/-- Embedding of `escapeHtml` (`unnamed/part_000` lines 31-38,
`script.js` lines 32-39): five sequential `replaceAll` passes, `&` first. -/
def escapeHtml (s : List Char) : List Char :=
  replaceAllChar '\'' "&#39;".toList
    (replaceAllChar '"' "&quot;".toList
      (replaceAllChar '>' "&gt;".toList
        (replaceAllChar '<' "&lt;".toList
          (replaceAllChar '&' "&amp;".toList s))))

/-- The escape of one character, for reasoning about `escapeHtml`. -/
def escChar (c : Char) : List Char :=
  if c = '&' then "&amp;".toList
  else if c = '<' then "&lt;".toList
  else if c = '>' then "&gt;".toList
  else if c = '"' then "&quot;".toList
  else if c = '\'' then "&#39;".toList
  else [c]

/-- No character of the list is `<`, `>`, `"` or `'`. -/
def noDangerChars (s : List Char) : Bool :=
  s.all fun c => !(c == '<' || c == '>' || c == '"' || c == '\'')

/-- The list starts with one of the five entities
`&amp; &lt; &gt; &quot; &#39;`. -/
def startsEntity (s : List Char) : Bool :=
  leadsWith "&amp;".toList s || leadsWith "&lt;".toList s ||
  leadsWith "&gt;".toList s || leadsWith "&quot;".toList s ||
  leadsWith "&#39;".toList s

/-- Every occurrence of `&` in the list starts one of the five entities. -/
def entityOk : List Char → Bool
  | [] => true
  | c :: rest => (if c = '&' then startsEntity (c :: rest) else true) && entityOk rest

example : escapeHtml "<b a=\"x\">&'".toList =
    "&lt;b a=&quot;x&quot;&gt;&amp;&#39;".toList := by decide
example : entityOk (escapeHtml "<b a=\"x\">&'".toList) = true := by decide

/-! ## Helper lemmas -/

theorem mem_insertDesc {x t : Todo} {l : List Todo} :
    x ∈ insertDesc t l ↔ x = t ∨ x ∈ l := by
  induction l with
  | nil => simp [insertDesc]
  | cons u us ih =>
    unfold insertDesc
    by_cases h : t.createdAt < u.createdAt
    · simp [h, List.mem_cons, ih]
      tauto
    · simp [h, List.mem_cons]

theorem mem_sortByCreatedAtDesc {x : Todo} {l : List Todo} :
    x ∈ sortByCreatedAtDesc l ↔ x ∈ l := by
  induction l with
  | nil => simp [sortByCreatedAtDesc]
  | cons t ts ih =>
    simp [sortByCreatedAtDesc, mem_insertDesc, ih, List.mem_cons]

theorem replaceAllChar_append (t : Char) (rep a b : List Char) :
    replaceAllChar t rep (a ++ b) = replaceAllChar t rep a ++ replaceAllChar t rep b := by
  induction a with
  | nil => simp [replaceAllChar]
  | cons c cs ih => simp [replaceAllChar, ih]

theorem escapeHtml_cons (c : Char) (s : List Char) :
    escapeHtml (c :: s) = escChar c ++ escapeHtml s := by
  have e1 : replaceAllChar '&' "&amp;".toList (c :: s) =
      (if c = '&' then "&amp;".toList else [c]) ++ replaceAllChar '&' "&amp;".toList s := by
    simp [replaceAllChar]
  unfold escapeHtml
  rw [e1, replaceAllChar_append, replaceAllChar_append, replaceAllChar_append,
    replaceAllChar_append]
  congr 1
  by_cases h1 : c = '&'
  · subst h1; decide
  · rw [if_neg h1]
    by_cases h2 : c = '<'
    · subst h2; decide
    · by_cases h3 : c = '>'
      · subst h3; decide
      · by_cases h4 : c = '"'
        · subst h4; decide
        · by_cases h5 : c = '\''
          · subst h5; decide
          · simp [replaceAllChar, escChar, h1, h2, h3, h4, h5]

/-! ## Claim theorems -/

/-- C2 counterexample: the input `a@@b.co` matches the claim's pattern
`nonspace+@nonspace+.nonspace+` (split the tail as `@b` then `co`), yet
the validator rejects it, because the regex class `[^\s@]` also excludes
`@`. -/
theorem validateEmail_claim_pattern_cex :
    claimEmailPattern (jsTrim "a@@b.co".toList) = true ∧
    (validateEmail "a@@b.co".toList).valid = false := by decide

/-- C2 (amended): the email validator accepts a raw input if and only if
the trimmed value matches the anchored pattern `P+@P+.P+` where `P` is any
character that is neither whitespace nor `@` (the regex class `[^\s@]`). -/
theorem validateEmail_iff_regex (value : List Char) :
    (validateEmail value).valid = true ↔ emailRegexTest (jsTrim value) = true := by
  by_cases h : (jsTrim value).length = 0
  · have hv : jsTrim value = [] := List.length_eq_zero.mp h
    have he : emailRegexTest ([] : List Char) = false := by decide
    simp [validateEmail, hv, he]
  · by_cases he : emailRegexTest (jsTrim value) <;> simp [validateEmail, h, he]

/-- C3: the loader returns the empty array when the key is absent, when
the store access throws, and when the stored text does not parse; and for
every item list the saver is total, returning `false` exactly when the
underlying write throws. -/
theorem load_save_contract (parse : List Char → Option JsValue) (s : List Char)
    (w : WriteOutcome) (todos : List Todo) (hs : parse s = none) :
    loadTodos parse .absent = .arr [] ∧ loadTodos parse .thrown = .arr [] ∧
    loadTodos parse (.value s) = .arr [] ∧
    (saveTodos todos w = false ↔ w = .thrown) := by
  refine ⟨rfl, rfl, ?_, ?_⟩
  · by_cases h : s = []
    · simp [loadTodos, h]
    · simp [loadTodos, h, hs]
  · cases w <;> simp [saveTodos]

/-- C3 witness at a concrete unparsable store value and a failing write. -/
theorem load_save_contract_witness :
    loadTodos (fun _ => none) .absent = .arr [] ∧
    loadTodos (fun _ => none) .thrown = .arr [] ∧
    loadTodos (fun _ => none) (.value "x".toList) = .arr [] ∧
    (saveTodos [] .thrown = false ↔ WriteOutcome.thrown = .thrown) :=
  load_save_contract (fun _ => none) "x".toList .thrown [] rfl

/-- C10: when the stored text parses, the loader returns the parsed value
unchanged, whatever its shape; it never checks that the value is an
array. -/
theorem loadTodos_returns_parsed_value (parse : List Char → Option JsValue)
    (s : List Char) (v : JsValue) (h1 : s ≠ []) (h2 : parse s = some v) :
    loadTodos parse (.value s) = v := by
  simp [loadTodos, h1, h2]

/-- C10 witness: a store holding the text `5`, parsing to the number 5,
is loaded as that number, which is not the empty array. -/
theorem loadTodos_returns_parsed_value_witness :
    loadTodos (fun _ => some (.num 5)) (.value "5".toList) = .num 5 ∧
    JsValue.num 5 ≠ .arr [] :=
  ⟨loadTodos_returns_parsed_value (fun _ => some (.num 5)) "5".toList (.num 5)
      (by decide) rfl,
    by decide⟩

/-- C7: a submitted todo whose trimmed text is non-empty but shorter than
3 characters is rejected with the message
`Todo must be at least 3 characters.`; the in-memory and persisted lists
are unchanged and the input is not cleared. -/
theorem todoSubmit_short_text_rejected (inputValue newId : List Char) (now : Nat)
    (write : WriteOutcome) (todos stored : List Todo)
    (h1 : jsTrim inputValue ≠ []) (h2 : (jsTrim inputValue).length < 3) :
    todoSubmitHandler inputValue newId now write todos stored =
      ⟨todos, stored, false, some ("Todo must be at least 3 characters.".toList, true)⟩ := by
  have h0 : ¬(jsTrim inputValue).length = 0 := by
    simpa [List.length_eq_zero] using h1
  simp [todoSubmitHandler, h0, h2]

/-- C7 witness at the spec's scenario input `ok` (2 characters). -/
theorem todoSubmit_short_text_rejected_witness :
    todoSubmitHandler "ok".toList "id1".toList 7 .ok
        [⟨"a".toList, "abc".toList, false, 1⟩] [⟨"a".toList, "abc".toList, false, 1⟩] =
      ⟨[⟨"a".toList, "abc".toList, false, 1⟩], [⟨"a".toList, "abc".toList, false, 1⟩],
        false, some ("Todo must be at least 3 characters.".toList, true)⟩ :=
  todoSubmit_short_text_rejected "ok".toList "id1".toList 7 .ok
    [⟨"a".toList, "abc".toList, false, 1⟩] [⟨"a".toList, "abc".toList, false, 1⟩]
    (by decide) (by decide)

/-- C4: on a confirmed delete whose storage write fails, both apps show
the storage error message and reset the in-memory list to the list read
back from the store, which still holds the pre-delete persisted state. -/
theorem todoDelete_write_failure_reverts (id : List Char) (todos stored : List Todo)
    (messages storedMsgs : List ContactMsg) (h : id ≠ []) :
    todoDeleteHandler id true .thrown todos stored =
      ⟨stored, stored, false,
        some ("Could not delete todo (storage error).".toList, true)⟩ ∧
    contactDeleteHandler id true .thrown messages storedMsgs =
      ⟨storedMsgs, storedMsgs, false,
        some ("Could not delete message (storage error).".toList, true)⟩ := by
  constructor
  · simp [todoDeleteHandler, h, saveTodos]
  · simp [contactDeleteHandler, h, saveMessages]

/-- C4 witness: deleting the only item with a failing write leaves the
persisted one-item list as the visible list and shows the error. -/
theorem todoDelete_write_failure_reverts_witness :
    todoDeleteHandler "1".toList true .thrown
        [⟨"1".toList, "abc".toList, false, 1⟩] [⟨"1".toList, "abc".toList, false, 1⟩] =
      ⟨[⟨"1".toList, "abc".toList, false, 1⟩], [⟨"1".toList, "abc".toList, false, 1⟩],
        false, some ("Could not delete todo (storage error).".toList, true)⟩ ∧
    contactDeleteHandler "1".toList true .thrown [] [] =
      ⟨[], [], false, some ("Could not delete message (storage error).".toList, true)⟩ :=
  todoDelete_write_failure_reverts "1".toList
    [⟨"1".toList, "abc".toList, false, 1⟩] [⟨"1".toList, "abc".toList, false, 1⟩]
    [] [] (by decide)

/-- C8: removal by an identifier that matches no item is the identity, in
both the todo app and the contact app. -/
theorem removeById_missing_id_identity (id : List Char) (todos : List Todo)
    (messages : List ContactMsg)
    (h1 : ∀ t ∈ todos, t.id ≠ id) (h2 : ∀ m ∈ messages, m.id ≠ id) :
    removeById id todos = todos ∧ removeMsgById id messages = messages := by
  constructor
  · unfold removeById
    exact List.filter_eq_self.mpr fun a ha => by simpa using h1 a ha
  · unfold removeMsgById
    exact List.filter_eq_self.mpr fun a ha => by simpa using h2 a ha

/-- C8 witness: deleting id `zz` from one-item lists changes nothing. -/
theorem removeById_missing_id_identity_witness :
    removeById "zz".toList [⟨"1".toList, "abc".toList, false, 1⟩] =
      [⟨"1".toList, "abc".toList, false, 1⟩] ∧
    removeMsgById "zz".toList [⟨"1".toList, "n".toList, "e@x.co".toList, "m".toList, 2⟩] =
      [⟨"1".toList, "n".toList, "e@x.co".toList, "m".toList, 2⟩] :=
  removeById_missing_id_identity "zz".toList
    [⟨"1".toList, "abc".toList, false, 1⟩]
    [⟨"1".toList, "n".toList, "e@x.co".toList, "m".toList, 2⟩]
    (by decide) (by decide)

/-- C5: when all three fields validate and the write succeeds, the submit
handler prepends the entity built from the trimmed inputs, persists the
new list, resets the form and shows the success message; the tail of the
list is the previous list, unchanged. -/
theorem contactSubmit_valid_prepends (nameV emailV messageV newId : List Char)
    (now : Nat) (messages stored : List ContactMsg)
    (h1 : (validateName nameV).valid = true)
    (h2 : (validateEmail emailV).valid = true)
    (h3 : (validateMessage messageV).valid = true) :
    contactSubmitHandler nameV emailV messageV newId now .ok messages stored =
      ⟨⟨newId, jsTrim nameV, jsTrim emailV, jsTrim messageV, now⟩ :: messages,
        ⟨newId, jsTrim nameV, jsTrim emailV, jsTrim messageV, now⟩ :: messages,
        true, some ("Message submitted!".toList, false)⟩ := by
  simp [contactSubmitHandler, h1, h2, h3, saveMessages]

/-- C5 witness at the spec's scenario: name `Al`, email `a@b.co`,
message `Hello there!!`. -/
theorem contactSubmit_valid_prepends_witness :
    contactSubmitHandler "Al".toList "a@b.co".toList "Hello there!!".toList
        "id9".toList 42 .ok [] [] =
      ⟨[⟨"id9".toList, "Al".toList, "a@b.co".toList, "Hello there!!".toList, 42⟩],
        [⟨"id9".toList, "Al".toList, "a@b.co".toList, "Hello there!!".toList, 42⟩],
        true, some ("Message submitted!".toList, false)⟩ :=
  (contactSubmit_valid_prepends "Al".toList "a@b.co".toList "Hello there!!".toList
      "id9".toList 42 [] [] (by decide) (by decide) (by decide)).trans (by decide)

/-- C1 counterexample: with two incomplete items stored oldest-first and
no query, the `script.js` derivation returns them in list order, not
sorted by creation timestamp descending as the three-step pipeline of the
spec requires. -/
theorem applyFiltersAndSearchV0_omits_sort_cex :
    applyFiltersAndSearchV0
        [⟨"1".toList, "a".toList, false, 0⟩, ⟨"2".toList, "b".toList, false, 1⟩]
        "all".toList [] =
      [⟨"1".toList, "a".toList, false, 0⟩, ⟨"2".toList, "b".toList, false, 1⟩] ∧
    deriveSpec
        [⟨"1".toList, "a".toList, false, 0⟩, ⟨"2".toList, "b".toList, false, 1⟩]
        "all".toList [] =
      [⟨"2".toList, "b".toList, false, 1⟩, ⟨"1".toList, "a".toList, false, 0⟩] ∧
    applyFiltersAndSearchV0
        [⟨"1".toList, "a".toList, false, 0⟩, ⟨"2".toList, "b".toList, false, 1⟩]
        "all".toList [] ≠
      deriveSpec
        [⟨"1".toList, "a".toList, false, 0⟩, ⟨"2".toList, "b".toList, false, 1⟩]
        "all".toList [] := by decide

/-- C1 (amended): the `unnamed/part_001` derivation performs exactly the
spec's three steps in order (completion filter, then trimmed
case-insensitive substring filter, then sort by creation timestamp
descending), while the `script.js` derivation performs steps (1) and (2)
in order but omits the final sort. -/
theorem applyFiltersAndSearch_vs_spec_steps (todos : List Todo) (mode q : List Char) :
    applyFiltersAndSearchV1 todos mode q = deriveSpec todos mode q ∧
    applyFiltersAndSearchV0 todos mode q = deriveSpecUnsorted todos mode q := by
  by_cases hq : jsTrim q = []
  · have hz : jsLower ([] : List Char) = [] := rfl
    constructor
    · unfold applyFiltersAndSearchV1 deriveSpec
      simp [hq, hz]
    · unfold applyFiltersAndSearchV0 deriveSpecUnsorted
      simp [hq, hz]
  · have hpos : 0 < (jsLower (jsTrim q)).length := by
      simpa [jsLower, List.length_pos] using hq
    constructor
    · unfold applyFiltersAndSearchV1 deriveSpec
      simp [hpos, hq]
    · unfold applyFiltersAndSearchV0 deriveSpecUnsorted
      simp [hpos, hq]

/-- Soundness of the completed-mode search pipeline over an already
mode-filtered list: members are completed and, when the search guard is
active, match the query. -/
theorem mem_filteredSearch {l : List Todo} {ql : List Char} {t : Todo}
    (ht : t ∈ (if 0 < ql.length then
        (l.filter fun t => t.completed).filter fun t => jsIncludes (jsLower t.text) ql
      else l.filter fun t => t.completed)) :
    t.completed = true ∧ (0 < ql.length → jsIncludes (jsLower t.text) ql = true) := by
  by_cases h : 0 < ql.length
  · rw [if_pos h] at ht
    obtain ⟨h1, h2⟩ := List.mem_filter.mp ht
    exact ⟨(List.mem_filter.mp h1).2, fun _ => h2⟩
  · rw [if_neg h] at ht
    exact ⟨(List.mem_filter.mp ht).2, fun hp => absurd hp h⟩

/-- C6 counterexample: the whitespace query is a non-empty string, yet
with filter mode `completed` both derivations return the item whose text
`abc` does not contain that query case-insensitively (the query trims to
empty, so the substring filter is skipped). -/
theorem derive_completed_search_cex :
    applyFiltersAndSearchV1 [⟨"1".toList, "abc".toList, true, 0⟩] "completed".toList
        " ".toList = [⟨"1".toList, "abc".toList, true, 0⟩] ∧
    applyFiltersAndSearchV0 [⟨"1".toList, "abc".toList, true, 0⟩] "completed".toList
        " ".toList = [⟨"1".toList, "abc".toList, true, 0⟩] ∧
    jsIncludes (jsLower "abc".toList) (jsLower " ".toList) = false := by decide

/-- C6 (amended): in both derivations, every item of the output for
filter mode `completed` has its completed flag true, and whenever the
query is non-empty after trimming, its text contains the trimmed query
case-insensitively. -/
theorem derive_completed_search_sound (todos : List Todo) (q : List Char) (t : Todo) :
    (t ∈ applyFiltersAndSearchV1 todos "completed".toList q →
      t.completed = true ∧
      (jsTrim q ≠ [] → jsIncludes (jsLower t.text) (jsLower (jsTrim q)) = true)) ∧
    (t ∈ applyFiltersAndSearchV0 todos "completed".toList q →
      t.completed = true ∧
      (jsTrim q ≠ [] → jsIncludes (jsLower t.text) (jsLower (jsTrim q)) = true)) := by
  constructor
  · intro ht
    simp only [applyFiltersAndSearchV1, mem_sortByCreatedAtDesc] at ht
    rw [if_pos trivial] at ht
    obtain ⟨hc, hs⟩ := mem_filteredSearch ht
    exact ⟨hc, fun hne => hs (by simpa [jsLower, List.length_pos] using hne)⟩
  · intro ht
    simp only [applyFiltersAndSearchV0] at ht
    rw [if_pos trivial] at ht
    obtain ⟨hc, hs⟩ := mem_filteredSearch ht
    exact ⟨hc, fun hne => hs (by simpa [jsLower, List.length_pos] using hne)⟩

/-- C6 witness: the completed item `Food` is returned for query `FOO` and
indeed matches it case-insensitively. -/
theorem derive_completed_search_sound_witness :
    Todo.completed ⟨"1".toList, "Food".toList, true, 0⟩ = true ∧
    jsIncludes (jsLower "Food".toList) (jsLower (jsTrim "FOO".toList)) = true := by
  have h := (derive_completed_search_sound [⟨"1".toList, "Food".toList, true, 0⟩]
      "FOO".toList ⟨"1".toList, "Food".toList, true, 0⟩).1 (by decide)
  exact ⟨h.1, h.2 (by decide)⟩

theorem noDangerChars_append (a b : List Char) :
    noDangerChars (a ++ b) = (noDangerChars a && noDangerChars b) := by
  simp [noDangerChars]

theorem noDangerChars_escChar (c : Char) : noDangerChars (escChar c) = true := by
  by_cases h1 : c = '&'
  · subst h1; decide
  · by_cases h2 : c = '<'
    · subst h2; decide
    · by_cases h3 : c = '>'
      · subst h3; decide
      · by_cases h4 : c = '"'
        · subst h4; decide
        · by_cases h5 : c = '\''
          · subst h5; decide
          · simp [escChar, noDangerChars, h1, h2, h3, h4, h5]

theorem entityOk_escChar_append (c : Char) (rest : List Char)
    (h : entityOk rest = true) : entityOk (escChar c ++ rest) = true := by
  by_cases h1 : c = '&'
  · subst h1; exact h
  · by_cases h2 : c = '<'
    · subst h2; exact h
    · by_cases h3 : c = '>'
      · subst h3; exact h
      · by_cases h4 : c = '"'
        · subst h4; exact h
        · by_cases h5 : c = '\''
          · subst h5; exact h
          · rw [show escChar c = [c] from by simp [escChar, h1, h2, h3, h4, h5]]
            show entityOk (c :: rest) = true
            simp [entityOk, h1, h]

/-- C9: for every input, the HTML escape emits none of the characters
`<`, `>`, `"`, `'`, and every `&` in its output starts one of the five
entities, so user text is never emitted unescaped. -/
theorem escapeHtml_output_safe (s : List Char) :
    noDangerChars (escapeHtml s) = true ∧ entityOk (escapeHtml s) = true := by
  induction s with
  | nil => exact ⟨rfl, rfl⟩
  | cons c cs ih =>
    rw [escapeHtml_cons]
    refine ⟨?_, entityOk_escChar_append c _ ih.2⟩
    rw [noDangerChars_append, noDangerChars_escChar, ih.1]
    rfl
